import Mathlib

/-!
# sphinx-exporter: the collection cycle and the reconciliation of vanished indexes

A shallow embedding of `src/sphinx-exporter.go` (`zeroMissedIndexes`, `setStats`, `init`).

Modelling decisions:

* `float64` gauge values are an arbitrary type `V` with the value `zero` written by `Set(0)`;
  `strconv.ParseFloat` is a parameter `parseFloat : String → Option V` (`none` = `err != nil`).
  No arithmetic is done on gauge values by the program.
* `gauges : map[string]*GaugeVec` is never changed after `init`.  It is represented by the list
  of its keys (`State.keys`, in iteration order) and by the values of the label children,
  `State.vals key index` (`none` = the child was never created by `With`).
* `map[string]bool` index sets only ever store `true`; they are represented by the list of
  their keys.  `m[name] = true` is `List.insert`, `m[name] != true` is non-membership.
* `totalIndexes` is a `float64` that counts up by one from zero; it is a `Nat` here.
* What the stats source answers during one cycle is an explicit input value `Fetch`.
  A row list ends where `Next()` returns false; the program never reads `Err()`, so an
  answer cut short by the driver is the same input as the shorter answer.
* Cycles are run one after another (`runCycles`); the sleep and the goroutine are not modelled.
-/

namespace SphinxExporter

/-! ## Inputs: what the stats source returns during one cycle -/

/-- One iteration of `for stats.Next()`: either `stats.Scan` fails or it yields a name and a
value text. -/
inductive StatRow where
  | scanErr : StatRow
  | row (statName statValue : String) : StatRow
  deriving DecidableEq, Repr

/-- One iteration of `for indexes.Next()`: `indexes.Scan` fails, or the query
`SHOW INDEX name STATUS` fails, or it returns the stat rows of the index. -/
inductive IndexRow where
  | scanErr : IndexRow
  | queryErr (indexName : String) : IndexRow
  | row (indexName : String) (stats : List StatRow) : IndexRow
  deriving DecidableEq, Repr

/-- The answers of the stats source in one cycle: `getSphinxConnection` returns nil, or
`SHOW TABLES` fails, or it returns the index rows. -/
inductive Fetch where
  | connFail : Fetch
  | queryErr : Fetch
  | tables (rows : List IndexRow) : Fetch
  deriving DecidableEq, Repr

/-! ## Program state -/

/-- Values of the gauge children: `vals key index`. -/
abbrev Vals (V : Type) := String → String → Option V

/-- The package-level variables `gauges`, `indexCount`, `previousIndexes`. -/
structure State (V : Type) where
  keys : List String
  vals : Vals V
  indexCount : Nat
  previousIndexes : List String

/-- The locals of `setStats` at the moment the collection phase is left; `ok = false` when it
was left through one of the `return` statements. -/
structure Collected (V : Type) where
  vals : Vals V
  currentIndexes : List String
  totalIndexes : Nat
  ok : Bool

/-- The call `gauges[key].With(labels).Set(v)` with the label `index = indexName`. -/
def setGauge {V : Type} (g : Vals V) (key indexName : String) (v : V) : Vals V :=
  fun k i => if k = key ∧ i = indexName then some v else g k i

/-- The inner loop of `zeroMissedIndexes`: for every key of `gauges`, `Set(0)` on the child
of `indexName`. -/
def zeroIndex {V : Type} (zero : V) (keys : List String) (indexName : String)
    (g : Vals V) : Vals V :=
  keys.foldl (fun g key => setGauge g key indexName zero) g

/-- The outer loop of `zeroMissedIndexes` over `previousIndexes`. -/
def zeroLoop {V : Type} (zero : V) (keys : List String) (currentIndexes : List String)
    (previous : List String) (g : Vals V) : Vals V :=
  previous.foldl
    (fun g indexName =>
      if ¬ (indexName ∈ currentIndexes) then zeroIndex zero keys indexName g else g) g

/-- The function `zeroMissedIndexes(currentIndexes)`. -/
def zeroMissedIndexes {V : Type} (zero : V) (s : State V) (currentIndexes : List String) :
    State V :=
  { s with
    vals := zeroLoop zero s.keys currentIndexes s.previousIndexes s.vals
    previousIndexes := currentIndexes }

/-- The loop `for stats.Next()` of `setStats` for the index `indexName`; the flag is `false`
when the loop body executed `return`. -/
def statsLoop {V : Type} (parseFloat : String → Option V) (keys : List String)
    (indexName : String) : List StatRow → Vals V → Vals V × Bool
  | [], g => (g, true)
  | StatRow.scanErr :: _, g => (g, false)
  | StatRow.row statName statValue :: rest, g =>
    if statName ∈ keys then
      match parseFloat statValue with
      | none => (g, false)
      | some count => statsLoop parseFloat keys indexName rest (setGauge g statName indexName count)
    else statsLoop parseFloat keys indexName rest g

/-- The loop `for indexes.Next()` of `setStats`. -/
def indexLoop {V : Type} (parseFloat : String → Option V) (keys : List String) :
    List IndexRow → Vals V → List String → Nat → Collected V
  | [], g, cur, n => ⟨g, cur, n, true⟩
  | IndexRow.scanErr :: _, g, cur, n => ⟨g, cur, n, false⟩
  | IndexRow.queryErr _ :: _, g, cur, n => ⟨g, cur, n, false⟩
  | IndexRow.row indexName stats :: rest, g, cur, n =>
    match statsLoop parseFloat keys indexName stats g with
    | (g', true) => indexLoop parseFloat keys rest g' (List.insert indexName cur) (n + 1)
    | (g', false) => ⟨g', List.insert indexName cur, n, false⟩

/-- The collection phase of `setStats` (everything before `zeroMissedIndexes`). -/
def collect {V : Type} (parseFloat : String → Option V) (s : State V) : Fetch → Collected V
  | Fetch.connFail => ⟨s.vals, [], 0, true⟩
  | Fetch.queryErr => ⟨s.vals, [], 0, false⟩
  | Fetch.tables rows => indexLoop parseFloat s.keys rows s.vals [] 0

/-- One cycle: the function `setStats`. -/
def setStats {V : Type} (zero : V) (parseFloat : String → Option V) (s : State V)
    (f : Fetch) : State V :=
  let c := collect parseFloat s f
  if c.ok then
    { zeroMissedIndexes zero { s with vals := c.vals } c.currentIndexes with
      indexCount := c.totalIndexes }
  else
    { s with vals := c.vals }

/-- Consecutive cycles, oldest first. -/
def runCycles {V : Type} (zero : V) (parseFloat : String → Option V) (s : State V)
    (fs : List Fetch) : State V :=
  fs.foldl (setStats zero parseFloat) s

/-- The metric keys registered by `init`. -/
def gaugeKeys : List String :=
  ["indexed_documents", "indexed_bytes", "field_tokens_title", "field_tokens_body",
   "total_tokens", "ram_bytes", "disk_bytes", "mem_limit"]

/-- The state after `init` and the variable initialisers. -/
def initState (V : Type) : State V :=
  { keys := gaugeKeys, vals := fun _ _ => none, indexCount := 0, previousIndexes := [] }

/-! ## Vocabulary of the specification -/

/-- A state with the given registered keys and nothing else: used to read off those results
of the collection phase that depend only on the keys and on the input. -/
def blankState (V : Type) (keys : List String) : State V :=
  { keys := keys, vals := fun _ _ => none, indexCount := 0, previousIndexes := [] }

/-- The index names observed in a cycle: the `currentIndexes` the cycle builds. -/
def observed {V : Type} (parseFloat : String → Option V) (keys : List String) (f : Fetch) :
    List String :=
  (collect parseFloat (blankState V keys) f).currentIndexes

/-- The index names listed by `SHOW TABLES` in a cycle, one per row that scanned. -/
def listedNames : Fetch → List String
  | Fetch.tables rows =>
    rows.filterMap fun r =>
      match r with
      | IndexRow.scanErr => none
      | IndexRow.queryErr indexName => some indexName
      | IndexRow.row indexName _ => some indexName
  | _ => []

/-- Whether a stat row is an error for the cycle: the scan fails, or the stat is registered
and its value text does not parse. -/
def statRowFails {V : Type} (parseFloat : String → Option V) (keys : List String) :
    StatRow → Bool
  | StatRow.scanErr => true
  | StatRow.row statName statValue => decide (statName ∈ keys) && (parseFloat statValue).isNone

/-- Whether an index row is an error for the cycle: its scan fails, its stat query fails, or
one of its stat rows is an error. -/
def indexRowFails {V : Type} (parseFloat : String → Option V) (keys : List String) :
    IndexRow → Bool
  | IndexRow.scanErr => true
  | IndexRow.queryErr _ => true
  | IndexRow.row _ stats => stats.any (statRowFails parseFloat keys)

/-- Whether the answers of a cycle contain a query, scan or parse error.  A failed connection
is not one of them. -/
def endsEarly {V : Type} (parseFloat : String → Option V) (keys : List String) :
    Fetch → Bool
  | Fetch.connFail => false
  | Fetch.queryErr => true
  | Fetch.tables rows => rows.any (indexRowFails parseFloat keys)

/-- The most recent cycle of a sequence (oldest first) whose answers contain no query, scan
or parse error. -/
def lastFinished {V : Type} (parseFloat : String → Option V) (keys : List String) :
    List Fetch → Option Fetch
  | [] => none
  | f :: fs =>
    match lastFinished parseFloat keys fs with
    | some f' => some f'
    | none => if endsEarly parseFloat keys f then none else some f

/-- A stat row that was fetched from the source, with the index it belongs to. -/
structure FetchedRow where
  indexName : String
  statName : String
  statValue : String
  deriving DecidableEq, Repr

/-- The stat rows of one index that `stats.Scan` delivered, in order, up to and including the
row at which the cycle was left; the flag tells whether the loop ran to its end. -/
def scannedStats {V : Type} (parseFloat : String → Option V) (keys : List String)
    (indexName : String) : List StatRow → List FetchedRow × Bool
  | [] => ([], true)
  | StatRow.scanErr :: _ => ([], false)
  | StatRow.row statName statValue :: rest =>
    if statName ∈ keys ∧ (parseFloat statValue).isNone then
      ([⟨indexName, statName, statValue⟩], false)
    else
      (⟨indexName, statName, statValue⟩
          :: (scannedStats parseFloat keys indexName rest).1,
        (scannedStats parseFloat keys indexName rest).2)

/-- The stat rows fetched while going through the listed indexes. -/
def fetchedRows {V : Type} (parseFloat : String → Option V) (keys : List String) :
    List IndexRow → List FetchedRow
  | [] => []
  | IndexRow.scanErr :: _ => []
  | IndexRow.queryErr _ :: _ => []
  | IndexRow.row indexName stats :: rest =>
    (scannedStats parseFloat keys indexName stats).1 ++
      (if (scannedStats parseFloat keys indexName stats).2 then
        fetchedRows parseFloat keys rest else [])

/-- The stat rows fetched in one cycle, in the order they were fetched. -/
def fetched {V : Type} (parseFloat : String → Option V) (keys : List String) :
    Fetch → List FetchedRow
  | Fetch.tables rows => fetchedRows parseFloat keys rows
  | _ => []

/-- The stat rows fetched in a sequence of cycles, oldest first. -/
def fetchedAll {V : Type} (parseFloat : String → Option V) (keys : List String) :
    List Fetch → List FetchedRow
  | [] => []
  | f :: fs => fetched parseFloat keys f ++ fetchedAll parseFloat keys fs

/-- The most recently fetched numeric value for the pair (`key`, `indexName`): the number
parsed from the last row of the log that belongs to the pair and whose text parses. -/
def lastNumeric {V : Type} (parseFloat : String → Option V) (key indexName : String) :
    List FetchedRow → Option V
  | [] => none
  | r :: rest =>
    match lastNumeric parseFloat key indexName rest with
    | some v => some v
    | none => if r.statName = key ∧ r.indexName = indexName then parseFloat r.statValue else none

/-- The most recently fetched stat row for the pair (`key`, `indexName`). -/
def lastRow (key indexName : String) : List FetchedRow → Option FetchedRow
  | [] => none
  | r :: rest =>
    match lastRow key indexName rest with
    | some r' => some r'
    | none => if r.statName = key ∧ r.indexName = indexName then some r else none

/-- The value a pair shows when `latest` is the most recently fetched numeric value of the
pair, if there is one, and `before` is what it showed before. -/
def exposed {V : Type} (latest before : Option V) : Option V :=
  match latest with
  | some v => some v
  | none => before

/-! ## A concrete value type for examples -/

/-- Decimal digits to a number, most significant first. -/
def digitsToNat : List Char → Nat → Option Nat
  | [], acc => some acc
  | c :: cs, acc => if c.isDigit then digitsToNat cs (acc * 10 + (c.toNat - 48)) else none

/-- A number parser for the examples: non-empty strings of decimal digits. -/
def parseNat (s : String) : Option Nat :=
  match s.data with
  | [] => none
  | cs => digitsToNat cs 0

/-! ## Concrete cycles used in the examples -/

/-- First cycle of the scenario: products = 100 and reviews = 50. -/
def cycleBoth : Fetch :=
  Fetch.tables
    [IndexRow.row "products" [StatRow.row "indexed_documents" "100"],
     IndexRow.row "reviews" [StatRow.row "indexed_documents" "50"]]

/-- Second cycle of the scenario: only products = 105. -/
def cycleProducts : Fetch :=
  Fetch.tables [IndexRow.row "products" [StatRow.row "indexed_documents" "105"]]

/-- A cycle that observes reviews, writes one value and is then left on a parse error. -/
def cycleReviewsAborted : Fetch :=
  Fetch.tables
    [IndexRow.row "reviews"
      [StatRow.row "indexed_documents" "50", StatRow.row "indexed_bytes" "abc"]]

/-- A cycle that observes products and is left on a parse error at its first stat row. -/
def cycleProductsAborted : Fetch :=
  Fetch.tables [IndexRow.row "products" [StatRow.row "indexed_documents" "abc"]]

/-- A completed cycle that observes only reviews = 50. -/
def cycleReviews : Fetch :=
  Fetch.tables [IndexRow.row "reviews" [StatRow.row "indexed_documents" "50"]]

/-- A completed cycle in which no index is listed. -/
def cycleNone : Fetch := Fetch.tables []

/-- A completed cycle in which the same index name is listed twice. -/
def cycleTwice : Fetch := Fetch.tables [IndexRow.row "products" [], IndexRow.row "products" []]

/-- A cycle in which the same stat is reported twice, first numeric and then not. -/
def cycleRepeated : Fetch :=
  Fetch.tables
    [IndexRow.row "products"
      [StatRow.row "indexed_documents" "5", StatRow.row "indexed_documents" "abc"]]

/-- A cycle with a parse error in the second stat row of the second index; a stat row and
an index row follow the failing row. -/
def cycleParseError : Fetch :=
  Fetch.tables
    ([IndexRow.row "products" [StatRow.row "indexed_documents" "100"]] ++
      IndexRow.row "reviews"
        ([StatRow.row "indexed_documents" "50"] ++
          StatRow.row "indexed_bytes" "abc" :: [StatRow.row "ram_bytes" "7"]) ::
      [IndexRow.row "orders" [StatRow.row "indexed_documents" "1"]])

/-- A cycle in which the source reports a stat that is not registered, with a value text that
is not a number. -/
def cycleUnknownStat : Fetch :=
  Fetch.tables
    ([] ++
      IndexRow.row "products"
        ([StatRow.row "indexed_documents" "100"] ++
          StatRow.row "query_time" "fast" :: [StatRow.row "ram_bytes" "7"]) ::
      [IndexRow.row "reviews" [StatRow.row "indexed_documents" "50"]])

/-- The cycle `cycleUnknownStat` without the row of the stat that is not registered. -/
def cycleKnownStats : Fetch :=
  Fetch.tables
    ([] ++
      IndexRow.row "products"
        ([StatRow.row "indexed_documents" "100"] ++ [StatRow.row "ram_bytes" "7"]) ::
      [IndexRow.row "reviews" [StatRow.row "indexed_documents" "50"]])

/-! ## Reconciliation: `zeroMissedIndexes` -/

section Reconcile

variable {V : Type} (zero : V)

theorem setGauge_apply (g : Vals V) (key indexName : String) (v : V) (k i : String) :
    setGauge g key indexName v k i = if k = key ∧ i = indexName then some v else g k i := rfl

theorem zeroIndex_apply (keys : List String) (indexName : String) (g : Vals V)
    (k i : String) :
    zeroIndex zero keys indexName g k i
      = if k ∈ keys ∧ i = indexName then some zero else g k i := by
  induction keys generalizing g with
  | nil => simp [zeroIndex]
  | cons key keys ih =>
    have step : zeroIndex zero (key :: keys) indexName g
        = zeroIndex zero keys indexName (setGauge g key indexName zero) := rfl
    rw [step, ih, setGauge_apply]
    by_cases h1 : k ∈ keys <;> by_cases h2 : i = indexName <;> by_cases h3 : k = key <;>
      simp [h1, h2, h3]

theorem zeroLoop_apply (keys cur previous : List String) (g : Vals V) (k i : String) :
    zeroLoop zero keys cur previous g k i
      = if k ∈ keys ∧ i ∈ previous ∧ i ∉ cur then some zero else g k i := by
  induction previous generalizing g with
  | nil => simp [zeroLoop]
  | cons p previous ih =>
    have step : zeroLoop zero keys cur (p :: previous) g
        = zeroLoop zero keys cur previous
            (if ¬ (p ∈ cur) then zeroIndex zero keys p g else g) := rfl
    rw [step, ih]
    by_cases hp : p ∈ cur
    · by_cases h1 : k ∈ keys <;> by_cases h2 : i ∈ previous <;> by_cases h3 : i ∈ cur <;>
        by_cases h4 : i = p <;> simp_all
    · simp only [hp, not_false_eq_true, if_true, zeroIndex_apply]
      by_cases h1 : k ∈ keys <;> by_cases h2 : i ∈ previous <;> by_cases h3 : i ∈ cur <;>
        by_cases h4 : i = p <;> simp_all

theorem zeroLoop_self (keys cur : List String) (g : Vals V) :
    zeroLoop zero keys cur cur g = g := by
  funext k i
  rw [zeroLoop_apply]
  by_cases h : i ∈ cur <;> simp [h]

end Reconcile

/-! ## The collection phase -/

section Collect

variable {V : Type} (parseFloat : String → Option V)

theorem exposed_none (b : Option V) : exposed none b = b := rfl

theorem exposed_some (v : V) (b : Option V) : exposed (some v) b = some v := rfl

theorem exposed_assoc (a b c : Option V) :
    exposed a (exposed b c) = exposed (exposed a b) c := by
  cases a <;> rfl

theorem lastNumeric_cons (key indexName : String) (r : FetchedRow) (rest : List FetchedRow) :
    lastNumeric parseFloat key indexName (r :: rest)
      = exposed (lastNumeric parseFloat key indexName rest)
          (if r.statName = key ∧ r.indexName = indexName then parseFloat r.statValue
            else none) := by
  simp only [lastNumeric]
  cases lastNumeric parseFloat key indexName rest <;> rfl

theorem lastNumeric_append (key indexName : String) (l₁ l₂ : List FetchedRow) :
    lastNumeric parseFloat key indexName (l₁ ++ l₂)
      = exposed (lastNumeric parseFloat key indexName l₂)
          (lastNumeric parseFloat key indexName l₁) := by
  induction l₁ with
  | nil =>
    cases h : lastNumeric parseFloat key indexName l₂ <;> simp [h, exposed, lastNumeric]
  | cons r l₁ ih =>
    rw [List.cons_append, lastNumeric_cons, lastNumeric_cons, ih, exposed_assoc]

theorem statsLoop_flag (keys : List String) (indexName : String) (stats : List StatRow)
    (g : Vals V) :
    (statsLoop parseFloat keys indexName stats g).2
      = (scannedStats parseFloat keys indexName stats).2 := by
  induction stats generalizing g with
  | nil => rfl
  | cons r rest ih =>
    cases r with
    | scanErr => rfl
    | row statName statValue =>
      simp only [statsLoop, scannedStats]
      by_cases hk : statName ∈ keys
      · cases hp : parseFloat statValue with
        | none => simp [hk]
        | some c => simp [hk, ih]
      · simp [hk, ih]

theorem statsLoop_vals (keys : List String) (indexName : String) (stats : List StatRow)
    (g : Vals V) (k j : String) (hk : k ∈ keys) :
    (statsLoop parseFloat keys indexName stats g).1 k j
      = exposed (lastNumeric parseFloat k j (scannedStats parseFloat keys indexName stats).1)
          (g k j) := by
  induction stats generalizing g with
  | nil => rfl
  | cons r rest ih =>
    cases r with
    | scanErr => rfl
    | row statName statValue =>
      simp only [statsLoop, scannedStats]
      by_cases hs : statName ∈ keys
      · cases hp : parseFloat statValue with
        | none => simp [hs, lastNumeric, hp, exposed]
        | some c =>
          simp only [hs, true_and, Option.isNone_some, if_true, Bool.false_eq_true, if_false,
            ih, lastNumeric_cons, setGauge_apply, hp]
          cases lastNumeric parseFloat k j (scannedStats parseFloat keys indexName rest).1 with
          | some v => rfl
          | none =>
            simp only [exposed_none]
            by_cases h1 : statName = k
            · by_cases h2 : indexName = j
              · subst h1; subst h2; simp [exposed]
              · have h2' : ¬ j = indexName := fun h => h2 h.symm
                simp [h1, h2, h2', exposed]
            · have h1' : ¬ k = statName := fun h => h1 h.symm
              simp [h1, h1', exposed]
      · have hne : ¬ statName = k := fun h => hs (h ▸ hk)
        simp only [hs, false_and, if_false, ih, lastNumeric_cons, hne]
        cases lastNumeric parseFloat k j (scannedStats parseFloat keys indexName rest).1 <;> rfl

theorem statsLoop_append (keys : List String) (indexName : String) (a b : List StatRow)
    (g : Vals V) :
    statsLoop parseFloat keys indexName (a ++ b) g
      = if (statsLoop parseFloat keys indexName a g).2 then
          statsLoop parseFloat keys indexName b (statsLoop parseFloat keys indexName a g).1
        else statsLoop parseFloat keys indexName a g := by
  induction a generalizing g with
  | nil => simp [statsLoop]
  | cons r rest ih =>
    cases r with
    | scanErr => simp [statsLoop]
    | row statName statValue =>
      simp only [List.cons_append, statsLoop]
      by_cases hs : statName ∈ keys
      · cases hp : parseFloat statValue with
        | none => simp [hs]
        | some c => simp [hs, ih]
      · simp [hs, ih]

theorem indexLoop_row (keys : List String) (indexName : String) (stats : List StatRow)
    (rest : List IndexRow) (g : Vals V) (cur : List String) (n : Nat) :
    indexLoop parseFloat keys (IndexRow.row indexName stats :: rest) g cur n
      = if (statsLoop parseFloat keys indexName stats g).2 then
          indexLoop parseFloat keys rest (statsLoop parseFloat keys indexName stats g).1
            (List.insert indexName cur) (n + 1)
        else
          ⟨(statsLoop parseFloat keys indexName stats g).1, List.insert indexName cur, n,
            false⟩ := by
  simp only [indexLoop]
  rcases statsLoop parseFloat keys indexName stats g with ⟨g', b⟩
  cases b <;> simp

theorem indexLoop_nil (keys : List String) (g : Vals V) (cur : List String) (n : Nat) :
    indexLoop parseFloat keys [] g cur n = ⟨g, cur, n, true⟩ := rfl

theorem indexLoop_vals (keys : List String) (rows : List IndexRow) (g : Vals V)
    (cur : List String) (n : Nat) (k j : String) (hk : k ∈ keys) :
    (indexLoop parseFloat keys rows g cur n).vals k j
      = exposed (lastNumeric parseFloat k j (fetchedRows parseFloat keys rows)) (g k j) := by
  induction rows generalizing g cur n with
  | nil => rfl
  | cons r rest ih =>
    cases r with
    | scanErr => rfl
    | queryErr indexName => rfl
    | row indexName stats =>
      rw [indexLoop_row]
      simp only [fetchedRows, statsLoop_flag]
      by_cases hb : (scannedStats parseFloat keys indexName stats).2 = true
      · simp only [hb, if_true]
        rw [ih, statsLoop_vals parseFloat keys indexName stats g k j hk, lastNumeric_append,
          exposed_assoc]
      · simp only [hb, if_false, Bool.false_eq_true, List.append_nil]
        exact statsLoop_vals parseFloat keys indexName stats g k j hk

theorem indexLoop_indep (keys : List String) (rows : List IndexRow) (g g' : Vals V)
    (cur : List String) (n n' : Nat) :
    (indexLoop parseFloat keys rows g cur n).currentIndexes
        = (indexLoop parseFloat keys rows g' cur n').currentIndexes
      ∧ (indexLoop parseFloat keys rows g cur n).ok
        = (indexLoop parseFloat keys rows g' cur n').ok := by
  induction rows generalizing g g' cur n n' with
  | nil => exact ⟨rfl, rfl⟩
  | cons r rest ih =>
    cases r with
    | scanErr => exact ⟨rfl, rfl⟩
    | queryErr indexName => exact ⟨rfl, rfl⟩
    | row indexName stats =>
      rw [indexLoop_row, indexLoop_row]
      simp only [statsLoop_flag]
      by_cases hb : (scannedStats parseFloat keys indexName stats).2 = true
      · simp only [hb, if_true]
        exact ih _ _ _ _ _
      · simp [hb]

theorem indexLoop_total (keys : List String) (rows : List IndexRow) (g : Vals V)
    (cur : List String) (n : Nat)
    (hok : (indexLoop parseFloat keys rows g cur n).ok = true) :
    (indexLoop parseFloat keys rows g cur n).totalIndexes = n + rows.length := by
  induction rows generalizing g cur n with
  | nil => rfl
  | cons r rest ih =>
    cases r with
    | scanErr => simp [indexLoop] at hok
    | queryErr indexName => simp [indexLoop] at hok
    | row indexName stats =>
      rw [indexLoop_row] at hok ⊢
      by_cases hb : (statsLoop parseFloat keys indexName stats g).2 = true
      · simp only [hb, if_true] at hok ⊢
        rw [ih _ _ _ hok, List.length_cons]
        omega
      · simp [hb] at hok

theorem indexLoop_total_of_not_ok (keys : List String) (rows : List IndexRow) (g : Vals V)
    (cur : List String) (n : Nat) :
    n ≤ (indexLoop parseFloat keys rows g cur n).totalIndexes := by
  induction rows generalizing g cur n with
  | nil => exact Nat.le_refl _
  | cons r rest ih =>
    cases r with
    | scanErr => exact Nat.le_refl _
    | queryErr indexName => exact Nat.le_refl _
    | row indexName stats =>
      rw [indexLoop_row]
      by_cases hb : (statsLoop parseFloat keys indexName stats g).2 = true
      · simp only [hb, if_true]
        exact Nat.le_trans (Nat.le_succ n) (ih _ _ _)
      · simp [hb]

theorem indexLoop_append (keys : List String) (a b : List IndexRow) (g : Vals V)
    (cur : List String) (n : Nat) :
    indexLoop parseFloat keys (a ++ b) g cur n
      = if (indexLoop parseFloat keys a g cur n).ok then
          indexLoop parseFloat keys b (indexLoop parseFloat keys a g cur n).vals
            (indexLoop parseFloat keys a g cur n).currentIndexes
            (indexLoop parseFloat keys a g cur n).totalIndexes
        else indexLoop parseFloat keys a g cur n := by
  induction a generalizing g cur n with
  | nil => simp [indexLoop]
  | cons r rest ih =>
    cases r with
    | scanErr => simp [indexLoop]
    | queryErr indexName => simp [indexLoop]
    | row indexName stats =>
      rw [List.cons_append, indexLoop_row, indexLoop_row]
      by_cases hb : (statsLoop parseFloat keys indexName stats g).2 = true
      · simp only [hb, if_true]
        exact ih _ _ _
      · simp [hb]

theorem indexLoop_length (keys : List String) (rows : List IndexRow) (g : Vals V)
    (cur : List String) (n : Nat)
    (hok : (indexLoop parseFloat keys rows g cur n).ok = true)
    (hnd : (listedNames (Fetch.tables rows)).Nodup)
    (hcur : ∀ x ∈ listedNames (Fetch.tables rows), x ∉ cur) :
    (indexLoop parseFloat keys rows g cur n).currentIndexes.length
      = cur.length + rows.length := by
  induction rows generalizing g cur n with
  | nil => rfl
  | cons r rest ih =>
    cases r with
    | scanErr => simp [indexLoop] at hok
    | queryErr indexName => simp [indexLoop] at hok
    | row indexName stats =>
      rw [indexLoop_row] at hok ⊢
      by_cases hb : (statsLoop parseFloat keys indexName stats g).2 = true
      · simp only [hb, if_true] at hok ⊢
        simp only [listedNames, List.filterMap_cons, List.nodup_cons, List.mem_cons,
          forall_eq_or_imp] at hnd hcur
        have hins : List.insert indexName cur = indexName :: cur :=
          List.insert_of_not_mem hcur.1
        rw [ih _ _ _ hok hnd.2, hins]
        · simp only [List.length_cons]
          omega
        · intro x hx
          rw [hins, List.mem_cons, not_or]
          exact ⟨fun h => hnd.1 (h ▸ hx), hcur.2 x hx⟩
      · simp [hb] at hok

end Collect

/-! ## One cycle and sequences of cycles -/

section Cycle

variable {V : Type} (zero : V) (parseFloat : String → Option V)

theorem collect_currentIndexes (s : State V) (f : Fetch) :
    (collect parseFloat s f).currentIndexes = observed parseFloat s.keys f := by
  cases f with
  | connFail => rfl
  | queryErr => rfl
  | tables rows => exact (indexLoop_indep parseFloat s.keys rows _ _ [] 0 0).1

theorem collect_vals (s : State V) (f : Fetch) (k j : String) (hk : k ∈ s.keys) :
    (collect parseFloat s f).vals k j
      = exposed (lastNumeric parseFloat k j (fetched parseFloat s.keys f)) (s.vals k j) := by
  cases f with
  | connFail => rfl
  | queryErr => rfl
  | tables rows => exact indexLoop_vals parseFloat s.keys rows s.vals [] 0 k j hk

theorem setStats_keys (s : State V) (f : Fetch) :
    (setStats zero parseFloat s f).keys = s.keys := by
  unfold setStats
  by_cases h : (collect parseFloat s f).ok = true <;> simp [h, zeroMissedIndexes]

theorem setStats_previousIndexes (s : State V) (f : Fetch) :
    (setStats zero parseFloat s f).previousIndexes
      = if (collect parseFloat s f).ok then (collect parseFloat s f).currentIndexes
        else s.previousIndexes := by
  unfold setStats
  by_cases h : (collect parseFloat s f).ok = true <;> simp [h, zeroMissedIndexes]

theorem setStats_indexCount (s : State V) (f : Fetch) :
    (setStats zero parseFloat s f).indexCount
      = if (collect parseFloat s f).ok then (collect parseFloat s f).totalIndexes
        else s.indexCount := by
  unfold setStats
  by_cases h : (collect parseFloat s f).ok = true <;> simp [h, zeroMissedIndexes]

theorem setStats_vals (s : State V) (f : Fetch) (k i : String) :
    (setStats zero parseFloat s f).vals k i
      = if (collect parseFloat s f).ok = true ∧ k ∈ s.keys ∧ i ∈ s.previousIndexes
            ∧ i ∉ (collect parseFloat s f).currentIndexes
        then some zero else (collect parseFloat s f).vals k i := by
  unfold setStats
  by_cases h : (collect parseFloat s f).ok = true
  · simp only [h, if_true, zeroMissedIndexes, zeroLoop_apply, true_and]
  · simp [h]

theorem runCycles_cons (s : State V) (f : Fetch) (fs : List Fetch) :
    runCycles zero parseFloat s (f :: fs)
      = runCycles zero parseFloat (setStats zero parseFloat s f) fs := rfl

theorem runCycles_keys (s : State V) (fs : List Fetch) :
    (runCycles zero parseFloat s fs).keys = s.keys := by
  induction fs generalizing s with
  | nil => rfl
  | cons f fs ih => rw [runCycles_cons, ih, setStats_keys]

theorem lastNumeric_none_of_lastRow (key indexName : String) (log : List FetchedRow)
    (h : lastRow key indexName log = none) :
    lastNumeric parseFloat key indexName log = none := by
  induction log with
  | nil => rfl
  | cons r rest ih =>
    simp only [lastRow] at h
    cases hr : lastRow key indexName rest with
    | some r' => simp [hr] at h
    | none =>
      rw [hr] at h
      by_cases hc : r.statName = key ∧ r.indexName = indexName
      · simp [hc] at h
      · rw [lastNumeric_cons, ih hr]
        simp [hc, exposed]

theorem lastNumeric_of_lastRow (key indexName : String) (log : List FetchedRow)
    (r : FetchedRow) (v : V) (h : lastRow key indexName log = some r)
    (hv : parseFloat r.statValue = some v) :
    lastNumeric parseFloat key indexName log = some v := by
  induction log with
  | nil => simp [lastRow] at h
  | cons r₀ rest ih =>
    simp only [lastRow] at h
    rw [lastNumeric_cons]
    cases hr : lastRow key indexName rest with
    | some r' =>
      rw [hr] at h
      simp only [Option.some.injEq] at h
      rw [ih (h ▸ hr)]
      rfl
    | none =>
      rw [hr] at h
      rw [lastNumeric_none_of_lastRow parseFloat key indexName rest hr]
      by_cases hc : r₀.statName = key ∧ r₀.indexName = indexName
      · simp only [hc, and_self, if_true, Option.some.injEq] at h
        subst h
        simp [hc, exposed, hv]
      · simp [hc] at h

theorem setStats_vals_observed (s : State V) (f : Fetch) (k i : String) (hk : k ∈ s.keys)
    (hi : i ∈ observed parseFloat s.keys f) :
    (setStats zero parseFloat s f).vals k i
      = exposed (lastNumeric parseFloat k i (fetched parseFloat s.keys f)) (s.vals k i) := by
  rw [setStats_vals, collect_vals parseFloat s f k i hk, collect_currentIndexes]
  simp [hi]

theorem runCycles_vals_observed (s : State V) (fs : List Fetch) (k i : String)
    (hk : k ∈ s.keys) (hobs : ∀ f ∈ fs, i ∈ observed parseFloat s.keys f) :
    (runCycles zero parseFloat s fs).vals k i
      = exposed (lastNumeric parseFloat k i (fetchedAll parseFloat s.keys fs))
          (s.vals k i) := by
  induction fs generalizing s with
  | nil => rfl
  | cons f fs ih =>
    have hk' : k ∈ (setStats zero parseFloat s f).keys := by rw [setStats_keys]; exact hk
    have hobs' : ∀ f' ∈ fs, i ∈ observed parseFloat (setStats zero parseFloat s f).keys f' := by
      intro f' hf'
      rw [setStats_keys]
      exact hobs f' (List.mem_cons_of_mem _ hf')
    rw [runCycles_cons, ih _ hk' hobs', setStats_keys,
      setStats_vals_observed zero parseFloat s f k i hk (hobs f (List.mem_cons_self _ _))]
    simp only [fetchedAll]
    rw [lastNumeric_append, exposed_assoc]

theorem statsLoop_ok (keys : List String) (indexName : String) (stats : List StatRow)
    (g : Vals V) :
    (statsLoop parseFloat keys indexName stats g).2
      = !(stats.any (statRowFails parseFloat keys)) := by
  induction stats generalizing g with
  | nil => rfl
  | cons r rest ih =>
    cases r with
    | scanErr => rfl
    | row statName statValue =>
      simp only [statsLoop, List.any_cons, statRowFails]
      by_cases hs : statName ∈ keys
      · cases hp : parseFloat statValue with
        | none => simp [hs]
        | some c => simp [hs, ih]
      · simp [hs, ih]

theorem indexLoop_ok (keys : List String) (rows : List IndexRow) (g : Vals V)
    (cur : List String) (n : Nat) :
    (indexLoop parseFloat keys rows g cur n).ok
      = !(rows.any (indexRowFails parseFloat keys)) := by
  induction rows generalizing g cur n with
  | nil => rfl
  | cons r rest ih =>
    cases r with
    | scanErr => rfl
    | queryErr indexName => rfl
    | row indexName stats =>
      rw [indexLoop_row]
      simp only [List.any_cons, indexRowFails, statsLoop_ok]
      by_cases hb : stats.any (statRowFails parseFloat keys) = true
      · simp [hb]
      · simp [hb, ih]

theorem collect_ok_endsEarly (s : State V) (f : Fetch) :
    (collect parseFloat s f).ok = !(endsEarly parseFloat s.keys f) := by
  cases f with
  | connFail => rfl
  | queryErr => rfl
  | tables rows => exact indexLoop_ok parseFloat s.keys rows s.vals [] 0

theorem indexLoop_mem (keys : List String) (rows : List IndexRow) (g : Vals V)
    (cur : List String) (n : Nat) (x : String)
    (hok : (indexLoop parseFloat keys rows g cur n).ok = true) :
    x ∈ (indexLoop parseFloat keys rows g cur n).currentIndexes
      ↔ x ∈ cur ∨ x ∈ listedNames (Fetch.tables rows) := by
  induction rows generalizing g cur n with
  | nil => simp [indexLoop, listedNames]
  | cons r rest ih =>
    cases r with
    | scanErr => simp [indexLoop] at hok
    | queryErr indexName => simp [indexLoop] at hok
    | row indexName stats =>
      rw [indexLoop_row] at hok ⊢
      by_cases hb : (statsLoop parseFloat keys indexName stats g).2 = true
      · simp only [hb, if_true] at hok ⊢
        rw [ih _ _ _ hok]
        simp only [listedNames, List.filterMap_cons, List.mem_cons, List.mem_insert_iff]
        constructor
        · rintro ((h | h) | h)
          · exact Or.inr (Or.inl h)
          · exact Or.inl h
          · exact Or.inr (Or.inr h)
        · rintro (h | h | h)
          · exact Or.inl (Or.inr h)
          · exact Or.inl (Or.inl h)
          · exact Or.inr h
      · simp [hb] at hok

theorem collect_mem (s : State V) (f : Fetch) (x : String)
    (hok : (collect parseFloat s f).ok = true) :
    x ∈ (collect parseFloat s f).currentIndexes ↔ x ∈ listedNames f := by
  cases f with
  | connFail => simp [collect, listedNames]
  | queryErr => simp [collect] at hok
  | tables rows =>
    simp only [collect] at hok ⊢
    rw [indexLoop_mem parseFloat s.keys rows s.vals [] 0 x hok]
    simp

theorem setStats_previousIndexes_listed (s : State V) (f : Fetch) :
    if endsEarly parseFloat s.keys f then
      (setStats zero parseFloat s f).previousIndexes = s.previousIndexes
    else ∀ x, x ∈ (setStats zero parseFloat s f).previousIndexes ↔ x ∈ listedNames f := by
  have hok := collect_ok_endsEarly parseFloat s f
  by_cases he : endsEarly parseFloat s.keys f = true
  · rw [if_pos he, setStats_previousIndexes]
    simp [hok, he]
  · rw [if_neg he]
    intro x
    have hok' : (collect parseFloat s f).ok = true := by simp [hok, he]
    rw [setStats_previousIndexes]
    simp only [hok', if_true]
    exact collect_mem parseFloat s f x hok'

theorem runCycles_previousIndexes_listed (s : State V) (fs : List Fetch) :
    match lastFinished parseFloat s.keys fs with
    | some f => ∀ x, x ∈ (runCycles zero parseFloat s fs).previousIndexes ↔ x ∈ listedNames f
    | none => (runCycles zero parseFloat s fs).previousIndexes = s.previousIndexes := by
  induction fs generalizing s with
  | nil => rfl
  | cons f fs ih =>
    have hrest := ih (setStats zero parseFloat s f)
    rw [setStats_keys] at hrest
    rw [runCycles_cons]
    simp only [lastFinished]
    cases hl : lastFinished parseFloat s.keys fs with
    | some f' =>
      rw [hl] at hrest
      exact hrest
    | none =>
      rw [hl] at hrest
      have hone := setStats_previousIndexes_listed zero parseFloat s f
      by_cases he : endsEarly parseFloat s.keys f = true
      · rw [if_pos he] at hone
        simp only [he, if_true]
        exact hrest.trans hone
      · rw [if_neg he] at hone
        simp only [he, if_false, Bool.false_eq_true]
        intro x
        have hrest' : (runCycles zero parseFloat (setStats zero parseFloat s f) fs).previousIndexes
            = (setStats zero parseFloat s f).previousIndexes := hrest
        rw [hrest']
        exact hone x

end Cycle

/-! ## The claims -/

section Claims

variable {V : Type} (zero : V) (parseFloat : String → Option V)

/-- C2: after `zeroMissedIndexes(currentIndexes)` the value of a pair (key, index) is 0
exactly when the key is registered and the index is in the previous set but not in
`currentIndexes`; every other pair keeps its value, and the registered keys and `indexCount`
are untouched. -/
theorem zeroMissedIndexes_registry (s : State V) (currentIndexes : List String)
    (k i : String) :
    (zeroMissedIndexes zero s currentIndexes).vals k i
        = (if k ∈ s.keys ∧ i ∈ s.previousIndexes ∧ i ∉ currentIndexes then some zero
            else s.vals k i)
      ∧ (zeroMissedIndexes zero s currentIndexes).keys = s.keys
      ∧ (zeroMissedIndexes zero s currentIndexes).indexCount = s.indexCount :=
  ⟨zeroLoop_apply zero s.keys currentIndexes s.previousIndexes s.vals k i, rfl, rfl⟩

/-- C10: running `zeroMissedIndexes(currentIndexes)` a second time changes nothing: the
whole state (registry values and stored previous set) is the one after the first run. -/
theorem zeroMissedIndexes_idempotent (s : State V) (currentIndexes : List String) :
    zeroMissedIndexes zero (zeroMissedIndexes zero s currentIndexes) currentIndexes
      = zeroMissedIndexes zero s currentIndexes := by
  simp only [zeroMissedIndexes, zeroLoop_self]

/-- C4, counterexample: after a completed cycle that saw reviews = 50, a cycle whose
connection fails sets the value to 0 instead of leaving it at 50. -/
theorem connFail_changes_values :
    (setStats 0 parseNat (initState Nat) cycleReviews).vals "indexed_documents" "reviews"
        = some 50
      ∧ (setStats 0 parseNat (setStats 0 parseNat (initState Nat) cycleReviews)
          Fetch.connFail).vals "indexed_documents" "reviews" = some 0 := by
  decide

/-- C4, amended: a cycle whose connection fails runs the reconciliation with an empty
`currentIndexes`: every registered metric of every index of the previous set becomes 0, every
other pair keeps its value, the previous set becomes empty and `indexCount` becomes 0. -/
theorem connFail_zeroes_previous (s : State V) (k i : String) :
    (setStats zero parseFloat s Fetch.connFail).vals k i
        = (if k ∈ s.keys ∧ i ∈ s.previousIndexes then some zero else s.vals k i)
      ∧ (setStats zero parseFloat s Fetch.connFail).previousIndexes = []
      ∧ (setStats zero parseFloat s Fetch.connFail).indexCount = 0 := by
  refine ⟨?_, rfl, rfl⟩
  rw [setStats_vals]
  simp [collect]

/-- C5, counterexample: reviews is in the previous set and not in the set built before the
parse error, yet after the aborted cycle its value is still 50 and the previous set is still
the old one, not the set built by the aborted cycle. -/
theorem aborted_cycle_skips_reconciliation :
    (collect parseNat (setStats 0 parseNat (initState Nat) cycleReviews)
        cycleProductsAborted).ok = false
      ∧ "reviews" ∈ (setStats 0 parseNat (initState Nat) cycleReviews).previousIndexes
      ∧ (collect parseNat (setStats 0 parseNat (initState Nat) cycleReviews)
          cycleProductsAborted).currentIndexes = ["products"]
      ∧ (setStats 0 parseNat (setStats 0 parseNat (initState Nat) cycleReviews)
          cycleProductsAborted).vals "indexed_documents" "reviews" = some 50
      ∧ (setStats 0 parseNat (setStats 0 parseNat (initState Nat) cycleReviews)
          cycleProductsAborted).previousIndexes = ["reviews"] := by
  decide

/-- C5, amended: a cycle whose collection phase is left early on a query, scan or parse error
does not run the reconciliation: the registry is exactly as the collection left it (a
registered pair shows the last number fetched for it in this cycle, or else its value from
before the cycle; nothing is set to 0), and the previous set and `indexCount` are unchanged. -/
theorem aborted_cycle_no_reconciliation (s : State V) (f : Fetch) (k i : String)
    (hk : k ∈ s.keys) (habort : (collect parseFloat s f).ok = false) :
    (setStats zero parseFloat s f).vals = (collect parseFloat s f).vals
      ∧ (setStats zero parseFloat s f).vals k i
          = exposed (lastNumeric parseFloat k i (fetched parseFloat s.keys f)) (s.vals k i)
      ∧ (setStats zero parseFloat s f).previousIndexes = s.previousIndexes
      ∧ (setStats zero parseFloat s f).indexCount = s.indexCount := by
  have hvals : (setStats zero parseFloat s f).vals = (collect parseFloat s f).vals := by
    unfold setStats
    simp [habort]
  refine ⟨hvals, ?_, ?_, ?_⟩
  · rw [hvals, collect_vals parseFloat s f k i hk]
  · rw [setStats_previousIndexes]
    simp [habort]
  · rw [setStats_indexCount]
    simp [habort]

/-- C5, amended, at a concrete aborted cycle. -/
theorem aborted_cycle_no_reconciliation_witness :
    (setStats 0 parseNat (setStats 0 parseNat (initState Nat) cycleReviews)
        cycleProductsAborted).vals
        = (collect parseNat (setStats 0 parseNat (initState Nat) cycleReviews)
            cycleProductsAborted).vals
      ∧ (setStats 0 parseNat (setStats 0 parseNat (initState Nat) cycleReviews)
          cycleProductsAborted).vals "indexed_documents" "reviews"
          = exposed
              (lastNumeric parseNat "indexed_documents" "reviews"
                (fetched parseNat (setStats 0 parseNat (initState Nat) cycleReviews).keys
                  cycleProductsAborted))
              ((setStats 0 parseNat (initState Nat) cycleReviews).vals
                "indexed_documents" "reviews")
      ∧ (setStats 0 parseNat (setStats 0 parseNat (initState Nat) cycleReviews)
          cycleProductsAborted).previousIndexes
          = (setStats 0 parseNat (initState Nat) cycleReviews).previousIndexes
      ∧ (setStats 0 parseNat (setStats 0 parseNat (initState Nat) cycleReviews)
          cycleProductsAborted).indexCount
          = (setStats 0 parseNat (initState Nat) cycleReviews).indexCount :=
  aborted_cycle_no_reconciliation 0 parseNat
    (setStats 0 parseNat (initState Nat) cycleReviews) cycleProductsAborted
    "indexed_documents" "reviews" (by decide) (by decide)

/-- C9: after any sequence of cycles the stored `previousIndexes` holds exactly the index
names listed in the most recent cycle whose answers contain no query, scan or parse error,
and is the set it started with (empty after `init`) if there is no such cycle.  A single
cycle with such an error leaves `previousIndexes` exactly as it was, a cycle without one
replaces it by the names it listed, and a cycle reaches the reconciliation exactly when its
answers contain no such error. -/
theorem previousIndexes_of_last_completed (s : State V) (fs : List Fetch) (f : Fetch) :
    (match lastFinished parseFloat s.keys fs with
      | some f' =>
        ∀ x, x ∈ (runCycles zero parseFloat s fs).previousIndexes ↔ x ∈ listedNames f'
      | none => (runCycles zero parseFloat s fs).previousIndexes = s.previousIndexes)
      ∧ (match lastFinished parseFloat gaugeKeys fs with
        | some f' =>
          ∀ x, x ∈ (runCycles zero parseFloat (initState V) fs).previousIndexes
            ↔ x ∈ listedNames f'
        | none => (runCycles zero parseFloat (initState V) fs).previousIndexes = [])
      ∧ (if endsEarly parseFloat s.keys f then
          (setStats zero parseFloat s f).previousIndexes = s.previousIndexes
        else ∀ x, x ∈ (setStats zero parseFloat s f).previousIndexes ↔ x ∈ listedNames f)
      ∧ (collect parseFloat s f).ok = !(endsEarly parseFloat s.keys f) :=
  ⟨runCycles_previousIndexes_listed zero parseFloat s fs,
    runCycles_previousIndexes_listed zero parseFloat (initState V) fs,
    setStats_previousIndexes_listed zero parseFloat s f,
    collect_ok_endsEarly parseFloat s f⟩

/-- C9 at concrete sequences: after a cycle listing products and reviews, a cycle listing
only products and a cycle left early on a parse error, the stored set is that of the second
cycle; after only cycles with an error it is still empty. -/
theorem previousIndexes_of_last_completed_witness :
    endsEarly parseNat gaugeKeys cycleReviewsAborted = true
      ∧ lastFinished parseNat gaugeKeys [cycleBoth, cycleProducts, cycleReviewsAborted]
        = some cycleProducts
      ∧ (∀ x, x ∈ (runCycles 0 parseNat (initState Nat)
            [cycleBoth, cycleProducts, cycleReviewsAborted]).previousIndexes
          ↔ x ∈ listedNames cycleProducts)
      ∧ (runCycles 0 parseNat (initState Nat)
          [cycleBoth, cycleProducts, cycleReviewsAborted]).previousIndexes = ["products"]
      ∧ (runCycles 0 parseNat (initState Nat) [cycleBoth]).previousIndexes
        = ["reviews", "products"]
      ∧ lastFinished parseNat gaugeKeys [cycleReviewsAborted, Fetch.queryErr] = none
      ∧ (runCycles 0 parseNat (initState Nat)
          [cycleReviewsAborted, Fetch.queryErr]).previousIndexes = [] :=
  ⟨by decide, by decide,
    (previousIndexes_of_last_completed 0 parseNat (initState Nat)
      [cycleBoth, cycleProducts, cycleReviewsAborted] cycleNone).2.1,
    by decide, by decide, by decide,
    (previousIndexes_of_last_completed 0 parseNat (initState Nat)
      [cycleReviewsAborted, Fetch.queryErr] cycleNone).2.1⟩

/-- C8, counterexample: after a cycle that is left early `indexCount` still shows the count
of the cycle before (1) although the cycle built an empty `currentIndexes`; and after a
completed cycle that lists the same name twice `indexCount` is 2 although `currentIndexes`
has one element. -/
theorem indexCount_differs_from_observed :
    ((setStats 0 parseNat (setStats 0 parseNat (initState Nat) cycleReviews)
          Fetch.queryErr).indexCount = 1
        ∧ (collect parseNat (setStats 0 parseNat (initState Nat) cycleReviews)
            Fetch.queryErr).currentIndexes.length = 0)
      ∧ ((setStats 0 parseNat (initState Nat) cycleTwice).indexCount = 2
        ∧ (collect parseNat (initState Nat) cycleTwice).currentIndexes.length = 1) := by
  decide

/-- C8, amended: when the listed index names are pairwise distinct, a cycle that reaches the
reconciliation sets `indexCount` to the size of the `currentIndexes` it built, and a cycle
that is left early leaves `indexCount` at its previous value. -/
theorem indexCount_after_cycle (s : State V) (f : Fetch) (hnd : (listedNames f).Nodup) :
    (setStats zero parseFloat s f).indexCount
      = if (collect parseFloat s f).ok then (collect parseFloat s f).currentIndexes.length
        else s.indexCount := by
  rw [setStats_indexCount]
  by_cases hok : (collect parseFloat s f).ok = true
  · simp only [hok, if_true]
    cases f with
    | connFail => rfl
    | queryErr => rfl
    | tables rows =>
      simp only [collect] at hok ⊢
      rw [indexLoop_total parseFloat s.keys rows s.vals [] 0 hok,
        indexLoop_length parseFloat s.keys rows s.vals [] 0 hok hnd (by simp)]
      simp
  · simp [hok]

/-- C8, amended, at the second cycle of the scenario: `indexCount` is 1. -/
theorem indexCount_after_cycle_witness :
    (listedNames cycleProducts).Nodup
      ∧ (setStats 0 parseNat (setStats 0 parseNat (initState Nat) cycleBoth)
          cycleProducts).indexCount = 1 := by
  refine ⟨by decide, ?_⟩
  rw [indexCount_after_cycle 0 parseNat (setStats 0 parseNat (initState Nat) cycleBoth)
    cycleProducts (by decide)]
  decide

/-- C1, counterexample: the first cycle observes reviews, writes 50 and is left early on a
parse error; the second cycle completes and observes nothing; the value of reviews is still
50 after the reconciliation of the second cycle. -/
theorem stale_value_after_aborted_first_cycle :
    "indexed_documents" ∈ (initState Nat).keys
      ∧ "reviews" ∈ (collect parseNat (initState Nat) cycleReviewsAborted).currentIndexes
      ∧ (collect parseNat (setStats 0 parseNat (initState Nat) cycleReviewsAborted)
          cycleNone).ok = true
      ∧ "reviews" ∉ (collect parseNat (setStats 0 parseNat (initState Nat) cycleReviewsAborted)
          cycleNone).currentIndexes
      ∧ (setStats 0 parseNat (setStats 0 parseNat (initState Nat) cycleReviewsAborted)
          cycleNone).vals "indexed_documents" "reviews" = some 50 := by
  decide

/-- C1, amended: for two consecutive cycles that both reach the reconciliation, every
registered metric of every index observed in the first and not in the second is 0 after the
second cycle. -/
theorem vanished_index_zeroed (s : State V) (f₁ f₂ : Fetch) (k i : String)
    (hk : k ∈ s.keys)
    (h₁ : (collect parseFloat s f₁).ok = true)
    (h₂ : (collect parseFloat (setStats zero parseFloat s f₁) f₂).ok = true)
    (hi₁ : i ∈ (collect parseFloat s f₁).currentIndexes)
    (hi₂ : i ∉ (collect parseFloat (setStats zero parseFloat s f₁) f₂).currentIndexes) :
    (setStats zero parseFloat (setStats zero parseFloat s f₁) f₂).vals k i = some zero := by
  rw [setStats_vals, if_pos]
  refine ⟨h₂, ?_, ?_, hi₂⟩
  · rw [setStats_keys]
    exact hk
  · rw [setStats_previousIndexes]
    simp only [h₁, if_true]
    exact hi₁

/-- C1, amended, at the scenario: products = 100 and reviews = 50, then only products = 105;
afterwards reviews = 0, products = 105 and `indexCount` = 1. -/
theorem vanished_index_zeroed_witness :
    (setStats 0 parseNat (initState Nat) cycleBoth).vals "indexed_documents" "products"
        = some 100
      ∧ (setStats 0 parseNat (initState Nat) cycleBoth).vals "indexed_documents" "reviews"
        = some 50
      ∧ (setStats 0 parseNat (setStats 0 parseNat (initState Nat) cycleBoth)
          cycleProducts).vals "indexed_documents" "reviews" = some 0
      ∧ (setStats 0 parseNat (setStats 0 parseNat (initState Nat) cycleBoth)
          cycleProducts).vals "indexed_documents" "products" = some 105
      ∧ (setStats 0 parseNat (setStats 0 parseNat (initState Nat) cycleBoth)
          cycleProducts).indexCount = 1 :=
  ⟨by decide, by decide,
    vanished_index_zeroed 0 parseNat (initState Nat) cycleBoth cycleProducts
      "indexed_documents" "reviews" (by decide) (by decide) (by decide) (by decide)
      (by decide),
    by decide, by decide⟩

/-- C3: for an index observed in every cycle of a sequence, after each cycle (after the
first `n` cycles, for every `n`) the value of each registered metric of that index is the
most recently fetched numeric value of the pair, or its initial value when no numeric value
was fetched for the pair yet; in particular, when the most recently fetched stat row of the
pair parses to `v`, the value is `v`.  The reconciliation never replaces it by 0. -/
theorem observed_index_shows_latest (s : State V) (fs : List Fetch) (n : Nat) (k i : String)
    (hk : k ∈ s.keys) (hobs : ∀ f ∈ fs, i ∈ observed parseFloat s.keys f) :
    (runCycles zero parseFloat s (fs.take n)).vals k i
        = exposed (lastNumeric parseFloat k i (fetchedAll parseFloat s.keys (fs.take n)))
            (s.vals k i)
      ∧ ∀ (r : FetchedRow) (v : V),
          lastRow k i (fetchedAll parseFloat s.keys (fs.take n)) = some r →
          parseFloat r.statValue = some v →
          (runCycles zero parseFloat s (fs.take n)).vals k i = some v := by
  have hobs' : ∀ f ∈ fs.take n, i ∈ observed parseFloat s.keys f :=
    fun f hf => hobs f (List.mem_of_mem_take hf)
  have hval := runCycles_vals_observed zero parseFloat s (fs.take n) k i hk hobs'
  refine ⟨hval, ?_⟩
  intro r v hr hv
  rw [hval, lastNumeric_of_lastRow parseFloat k i _ r v hr hv]
  rfl

/-- C3 at the scenario: products is observed in both cycles and shows 105 after the second,
the number parsed from its most recently fetched row. -/
theorem observed_index_shows_latest_witness :
    (∀ f ∈ [cycleBoth, cycleProducts], "products" ∈ observed parseNat (initState Nat).keys f)
      ∧ (runCycles 0 parseNat (initState Nat) ([cycleBoth, cycleProducts].take 2)).vals
          "indexed_documents" "products" = some 105 :=
  ⟨by decide,
    (observed_index_shows_latest 0 parseNat (initState Nat) [cycleBoth, cycleProducts] 2
      "indexed_documents" "products" (by decide) (by decide)).2
      ⟨"products", "indexed_documents", "105"⟩ 105 (by decide) (by decide)⟩

/-- C6, counterexample: the stat is reported twice in one cycle, first as 5 and then as
"abc"; the pair had no value before the cycle and shows 5 after it. -/
theorem parse_error_pair_differs_from_before :
    "indexed_documents" ∈ (initState Nat).keys
      ∧ parseNat "abc" = none
      ∧ (collect parseNat (initState Nat) cycleRepeated).ok = false
      ∧ (initState Nat).vals "indexed_documents" "products" = none
      ∧ (setStats 0 parseNat (initState Nat) cycleRepeated).vals
          "indexed_documents" "products" = some 5 := by
  decide

/-- C6, amended: when the stat row (`k`, `bad`) of index `i` is reached and `bad` does not
parse for the registered key `k`, the registry after the cycle is the registry as the rows
before the failing one left it: earlier writes are kept, the failing row and the rows after
it change nothing.  The pair (`k`, `i`) shows the last number fetched for it earlier in the
cycle, or else its value from before the cycle. -/
theorem parse_error_keeps_registry (s : State V) (pre post : List IndexRow) (i : String)
    (spre spost : List StatRow) (k bad : String)
    (hk : k ∈ s.keys) (hbad : parseFloat bad = none)
    (hreach : (collect parseFloat s (Fetch.tables (pre ++ [IndexRow.row i spre]))).ok = true) :
    (setStats zero parseFloat s
        (Fetch.tables
          (pre ++ IndexRow.row i (spre ++ StatRow.row k bad :: spost) :: post))).vals
        = (collect parseFloat s (Fetch.tables (pre ++ [IndexRow.row i spre]))).vals
      ∧ (setStats zero parseFloat s
          (Fetch.tables
            (pre ++ IndexRow.row i (spre ++ StatRow.row k bad :: spost) :: post))).vals k i
        = exposed
            (lastNumeric parseFloat k i
              (fetched parseFloat s.keys (Fetch.tables (pre ++ [IndexRow.row i spre]))))
            (s.vals k i) := by
  have hpre : (indexLoop parseFloat s.keys pre s.vals [] 0).ok = true := by
    by_contra hc
    simp only [collect, indexLoop_append, hc, if_false, Bool.false_eq_true] at hreach
  have hspre : (statsLoop parseFloat s.keys i spre
      (indexLoop parseFloat s.keys pre s.vals [] 0).vals).2 = true := by
    by_contra hc
    simp [collect, indexLoop_append, hpre, indexLoop_row, hc] at hreach
  have hfail : ∀ g : Vals V,
      statsLoop parseFloat s.keys i (StatRow.row k bad :: spost) g = (g, false) := by
    intro g
    simp [statsLoop, hk, hbad]
  have hvals : (setStats zero parseFloat s
        (Fetch.tables
          (pre ++ IndexRow.row i (spre ++ StatRow.row k bad :: spost) :: post))).vals
        = (collect parseFloat s (Fetch.tables (pre ++ [IndexRow.row i spre]))).vals := by
    unfold setStats
    simp [collect, indexLoop_append, hpre, indexLoop_row, statsLoop_append, hspre, hfail,
      indexLoop_nil]
  refine ⟨hvals, ?_⟩
  rw [hvals, collect_vals parseFloat s _ k i hk]

/-- C6, amended, at a cycle with the failing row in the middle: the value written for the
earlier index and the one written earlier for the same index are kept, the failing pair has
no value as before the cycle, and the rows after the failing one are not applied. -/
theorem parse_error_keeps_registry_witness :
    (collect parseNat (initState Nat)
        (Fetch.tables
          ([IndexRow.row "products" [StatRow.row "indexed_documents" "100"]] ++
            [IndexRow.row "reviews" [StatRow.row "indexed_documents" "50"]]))).ok = true
      ∧ (setStats 0 parseNat (initState Nat) cycleParseError).vals
        = (collect parseNat (initState Nat)
            (Fetch.tables
              ([IndexRow.row "products" [StatRow.row "indexed_documents" "100"]] ++
                [IndexRow.row "reviews" [StatRow.row "indexed_documents" "50"]]))).vals
      ∧ (setStats 0 parseNat (initState Nat) cycleParseError).vals
          "indexed_documents" "products" = some 100
      ∧ (setStats 0 parseNat (initState Nat) cycleParseError).vals
          "indexed_documents" "reviews" = some 50
      ∧ (setStats 0 parseNat (initState Nat) cycleParseError).vals
          "indexed_bytes" "reviews" = none
      ∧ (setStats 0 parseNat (initState Nat) cycleParseError).vals
          "ram_bytes" "reviews" = none
      ∧ (setStats 0 parseNat (initState Nat) cycleParseError).vals
          "indexed_documents" "orders" = none :=
  ⟨by decide,
    (parse_error_keeps_registry 0 parseNat (initState Nat)
      [IndexRow.row "products" [StatRow.row "indexed_documents" "100"]]
      [IndexRow.row "orders" [StatRow.row "indexed_documents" "1"]] "reviews"
      [StatRow.row "indexed_documents" "50"] [StatRow.row "ram_bytes" "7"]
      "indexed_bytes" "abc" (by decide) (by decide) (by decide)).1,
    by decide, by decide, by decide, by decide, by decide⟩

/-- C7: a stat row whose name is not a registered key is skipped whatever its value text is:
the stat loop goes on with the following rows on an unchanged registry, and the state after
the cycle is the state after the same cycle without that row. -/
theorem unknown_stat_ignored (s : State V) (pre post : List IndexRow) (i : String)
    (spre spost : List StatRow) (name value : String) (hname : name ∉ s.keys) :
    (∀ g : Vals V,
        statsLoop parseFloat s.keys i (StatRow.row name value :: spost) g
          = statsLoop parseFloat s.keys i spost g)
      ∧ setStats zero parseFloat s
          (Fetch.tables
            (pre ++ IndexRow.row i (spre ++ StatRow.row name value :: spost) :: post))
        = setStats zero parseFloat s
            (Fetch.tables (pre ++ IndexRow.row i (spre ++ spost) :: post)) := by
  have hskip : ∀ g : Vals V,
      statsLoop parseFloat s.keys i (StatRow.row name value :: spost) g
        = statsLoop parseFloat s.keys i spost g := by
    intro g
    simp [statsLoop, hname]
  have hstats : ∀ g : Vals V,
      statsLoop parseFloat s.keys i (spre ++ StatRow.row name value :: spost) g
        = statsLoop parseFloat s.keys i (spre ++ spost) g := by
    intro g
    rw [statsLoop_append, statsLoop_append, hskip]
  have hcollect :
      collect parseFloat s
          (Fetch.tables
            (pre ++ IndexRow.row i (spre ++ StatRow.row name value :: spost) :: post))
        = collect parseFloat s
            (Fetch.tables (pre ++ IndexRow.row i (spre ++ spost) :: post)) := by
    simp only [collect]
    rw [indexLoop_append, indexLoop_append, indexLoop_row, indexLoop_row, hstats]
  refine ⟨hskip, ?_⟩
  unfold setStats
  rw [hcollect]

/-- C7 at a cycle that reports the unregistered stat "query_time" with the text "fast". -/
theorem unknown_stat_ignored_witness :
    "query_time" ∉ (initState Nat).keys
      ∧ setStats 0 parseNat (initState Nat) cycleUnknownStat
        = setStats 0 parseNat (initState Nat) cycleKnownStats
      ∧ (collect parseNat (initState Nat) cycleUnknownStat).ok = true
      ∧ (setStats 0 parseNat (initState Nat) cycleUnknownStat).vals "query_time" "products"
        = none
      ∧ (setStats 0 parseNat (initState Nat) cycleUnknownStat).vals "ram_bytes" "products"
        = some 7 :=
  ⟨by decide,
    (unknown_stat_ignored 0 parseNat (initState Nat) []
      [IndexRow.row "reviews" [StatRow.row "indexed_documents" "50"]] "products"
      [StatRow.row "indexed_documents" "100"] [StatRow.row "ram_bytes" "7"]
      "query_time" "fast" (by decide)).2,
    by decide, by decide, by decide⟩

end Claims

end SphinxExporter
